import Mathlib

/-!
Verification of the brightpearl_client request-execution engine
(`src/brightpearl_client/base_client.py` and `src/brightpearl_client/client.py`)
against its natural-language specification.

The Python code is shallowly embedded: pure computations become Lean
functions, the mutable cache directory becomes an explicit state of type
`CacheState`, wall-clock time becomes an explicit `Int` parameter counted in
seconds, network transports become explicit outcome functions passed as
arguments, and Python exceptions become `Except` values.  Machine integers
are modelled as `Nat`/`Int` with explicit `% 2 ^ 32` where the md5 hash
needs 32-bit wraparound.
-/

set_option maxRecDepth 4000

namespace BrightPearl

/-- Scalar JSON values as they occur in the rows of a product-search
response.  `null` models Python `None`. -/
inductive JVal where
  | b (v : Bool)
  | i (v : Int)
  | s (v : String)
  | null
deriving DecidableEq, Repr

/-- Python truthiness of a scalar JSON value (`bool(v)`). -/
def JVal.truthy : JVal → Bool
  | .b v => v
  | .i v => v != 0
  | .s v => v != ""
  | .null => false

/-- A Python dict with string keys, as an association list in insertion
order.  Built by `dict(zip(names, values))`, so a later binding of the same
key overwrites an earlier one. -/
abbrev Dict (α : Type) : Type := List (String × α)

/-- Python dict lookup `d.get(k)`: the value of the LAST binding of `k`
(later assignments win), `none` when the key is absent. -/
def pyGet {α : Type} (d : Dict α) (k : String) : Option α :=
  d.foldl (fun acc kv => if kv.1 = k then some kv.2 else acc) none

/- ----------------------------------------------------------------------
MD5, as used by `BrightPearlClient._generate_cache_prefix`
(`hashlib.md5(brightpearl_app_ref.encode()).hexdigest()[:8]`).
Standard RFC 1321 MD5 over the UTF-8 bytes of the string, computed on `Nat`
with explicit reduction modulo `2 ^ 32`.
---------------------------------------------------------------------- -/

/-- UTF-8 encoding of one character (Python `str.encode()`). -/
def utf8Char (c : Char) : List Nat :=
  let n := c.toNat
  if n < 128 then [n]
  else if n < 2048 then [192 + n / 64, 128 + n % 64]
  else if n < 65536 then [224 + n / 4096, 128 + n / 64 % 64, 128 + n % 64]
  else [240 + n / 262144, 128 + n / 4096 % 64, 128 + n / 64 % 64, 128 + n % 64]

/-- UTF-8 bytes of a string. -/
def utf8Bytes (s : String) : List Nat :=
  s.data.flatMap utf8Char

/-- The 64 MD5 sine-derived round constants `floor(2^32 * |sin(i+1)|)`. -/
def md5K : List Nat := [
  3614090360, 3905402710, 606105819, 3250441966, 4118548399, 1200080426, 2821735955, 4249261313,
  1770035416, 2336552879, 4294925233, 2304563134, 1804603682, 4254626195, 2792965006, 1236535329,
  4129170786, 3225465664, 643717713, 3921069994, 3593408605, 38016083, 3634488961, 3889429448,
  568446438, 3275163606, 4107603335, 1163531501, 2850285829, 4243563512, 1735328473, 2368359562,
  4294588738, 2272392833, 1839030562, 4259657740, 2763975236, 1272893353, 4139469664, 3200236656,
  681279174, 3936430074, 3572445317, 76029189, 3654602809, 3873151461, 530742520, 3299628645,
  4096336452, 1126891415, 2878612391, 4237533241, 1700485571, 2399980690, 4293915773, 2240044497,
  1873313359, 4264355552, 2734768916, 1309151649, 4149444226, 3174756917, 718787259, 3951481745]

/-- The MD5 per-round left-rotation amounts. -/
def md5S : List Nat := [
  7, 12, 17, 22, 7, 12, 17, 22, 7, 12, 17, 22, 7, 12, 17, 22,
  5, 9, 14, 20, 5, 9, 14, 20, 5, 9, 14, 20, 5, 9, 14, 20,
  4, 11, 16, 23, 4, 11, 16, 23, 4, 11, 16, 23, 4, 11, 16, 23,
  6, 10, 15, 21, 6, 10, 15, 21, 6, 10, 15, 21, 6, 10, 15, 21]

/-- 32-bit left rotation of `x` (assumed `< 2 ^ 32`) by `n` (with
`0 < n < 32`): the shifted-out high bits reappear as the low bits. -/
def rotl32 (x n : Nat) : Nat :=
  (x <<< n) % 4294967296 + x >>> (32 - n)

/-- Bitwise complement on 32 bits: for `x < 2 ^ 32`, `~x = 2^32 - 1 - x`. -/
def not32 (x : Nat) : Nat := 4294967295 - x

/-- MD5 padding: append the byte `0x80`, zero bytes until the length is
56 mod 64, then the original bit length as 8 little-endian bytes. -/
def md5Pad (msg : List Nat) : List Nat :=
  let padLen := (55 + 64 - msg.length % 64) % 64
  let bitLen := msg.length * 8 % 18446744073709551616
  msg ++ [128] ++ List.replicate padLen 0 ++
    (List.range 8).map (fun j => bitLen / 256 ^ j % 256)

/-- Split a byte list into 64-byte blocks (fuel-driven; with fuel at least
the list length plus one this is exact). -/
def md5Blocks : Nat → List Nat → List (List Nat)
  | 0, _ => []
  | _, [] => []
  | fuel + 1, l => l.take 64 :: md5Blocks fuel (l.drop 64)

/-- Decode a 64-byte block into 16 little-endian 32-bit words. -/
def md5Words (block : List Nat) : List Nat :=
  (List.range 16).map (fun i =>
    block.getD (4 * i) 0 + 256 * block.getD (4 * i + 1) 0 +
    65536 * block.getD (4 * i + 2) 0 + 16777216 * block.getD (4 * i + 3) 0)

/-- One MD5 round: mixing function and message index depend on the round
number `i`; all arithmetic is modulo `2 ^ 32`. -/
def md5Round (m : List Nat) (st : Nat × Nat × Nat × Nat) (i : Nat) :
    Nat × Nat × Nat × Nat :=
  let (a, b, c, d) := st
  let (f, g) :=
    if i < 16 then ((b &&& c) ||| (not32 b &&& d), i)
    else if i < 32 then ((d &&& b) ||| (not32 d &&& c), (5 * i + 1) % 16)
    else if i < 48 then (b ^^^ c ^^^ d, (3 * i + 5) % 16)
    else (c ^^^ (b ||| not32 d), 7 * i % 16)
  let sum := (a + f + md5K.getD i 0 + m.getD g 0) % 4294967296
  (d, (b + rotl32 sum (md5S.getD i 0)) % 4294967296, b, c)

/-- Process one 64-byte block, returning the updated chaining state. -/
def md5Block (st : Nat × Nat × Nat × Nat) (block : List Nat) :
    Nat × Nat × Nat × Nat :=
  let (a0, b0, c0, d0) := st
  let (a, b, c, d) := (List.range 64).foldl (md5Round (md5Words block)) st
  ((a0 + a) % 4294967296, (b0 + b) % 4294967296,
   (c0 + c) % 4294967296, (d0 + d) % 4294967296)

/-- Lowercase hexadecimal digit: `0`-`9` for values below ten, `a`-`f`
for ten to fifteen. -/
def hexDigitChar (n : Nat) : Char :=
  if n < 10 then Char.ofNat (48 + n) else Char.ofNat (87 + n)

/-- Two hex characters of one byte. -/
def byteHex (b : Nat) : List Char := [hexDigitChar (b / 16), hexDigitChar (b % 16)]

/-- Eight hex characters of one 32-bit word, little-endian byte order as in
an MD5 digest. -/
def wordHexLE (w : Nat) : List Char :=
  byteHex (w % 256) ++ byteHex (w / 256 % 256) ++
  byteHex (w / 65536 % 256) ++ byteHex (w / 16777216 % 256)

/-- The four 32-bit state words of the MD5 digest of a string. -/
def md5digest (s : String) : Nat × Nat × Nat × Nat :=
  let msg := md5Pad (utf8Bytes s)
  (md5Blocks (msg.length + 1) msg).foldl md5Block
    (1732584193, 4023233417, 2562383102, 271733878)

/-- The 32 hex characters of the MD5 digest of a string
(`hashlib.md5(s.encode()).hexdigest()`). -/
def md5hexChars (s : String) : List Char :=
  wordHexLE (md5digest s).1 ++ wordHexLE (md5digest s).2.1 ++
  wordHexLE (md5digest s).2.2.1 ++ wordHexLE (md5digest s).2.2.2

/-- `hashlib.md5(s.encode()).hexdigest()` as a string. -/
def md5hex (s : String) : String := ⟨md5hexChars s⟩

/- ----------------------------------------------------------------------
Cache namespacing (`client.py` lines 68-83).
A `BrightPearlClient` is constructed from the credential pair
(`brightpearl_app_ref`, `brightpearl_account_token`); at `__init__` it
stores `self._cache_prefix = _generate_cache_prefix(brightpearl_app_ref)`.
---------------------------------------------------------------------- -/

/-- The two static credential strings of a configured client
(`brightpearl_app_ref`, `brightpearl_account_token`). -/
structure Credentials where
  appRef : String
  accountToken : String
deriving DecidableEq, Repr

/-- `BrightPearlClient._generate_cache_prefix`:
`hashlib.md5(brightpearl_app_ref.encode()).hexdigest()[:8]`. -/
def generateCachePrefix (appRef : String) : String :=
  ⟨(md5hexChars appRef).take 8⟩

/-- `BrightPearlClient._get_cache_filename`:
`f"{self._cache_prefix}_{cache_key}_cache.json"`. -/
def getCacheFilename (pfx cacheKey : String) : String :=
  pfx ++ "_" ++ cacheKey ++ "_cache.json"

/-- The physical cache filename a configured client derives for a logical
cache key (`self._cache_prefix` is set at `__init__` from the app ref). -/
def clientCacheFilename (creds : Credentials) (cacheKey : String) : String :=
  getCacheFilename (generateCachePrefix creds.appRef) cacheKey

/- ----------------------------------------------------------------------
Disk cache state (`client.py` lines 85-109, 513-522).
The cache directory is one file per filename; the file's content and its
modification time (seconds) are the stored entry.  `CacheData` covers the
JSON payloads the client stores: availability entries, the live-product
list, and other raw JSON.
---------------------------------------------------------------------- -/

/-- One product's availability value: the `warehouses` dict (warehouse id
string to a dict of integer fields such as `onHand`) and the `total`
dict. -/
structure AvailEntry where
  warehouses : Dict (Dict Int)
  total : Dict Int
deriving DecidableEq, Repr

/-- `{"warehouses": {}, "total": {}}`. -/
def emptyAvail : AvailEntry := ⟨[], []⟩

/-- A product row of the live-product list, as used by the engine:
`product['productId']`, `product['SKU']`, `product.get('stockTracked',
False)` (already reduced to its truthiness). -/
structure Product where
  productId : Nat
  sku : String
  stockTracked : Bool
deriving DecidableEq, Repr

/-- A JSON value persisted in a cache file. -/
inductive CacheData where
  | avail (a : AvailEntry)
  | products (ps : List Product)
  | rawJson (s : String)
deriving DecidableEq, Repr

/-- Python truthiness of a cached JSON value (`if cached_data:`).  An
availability entry is a dict with the keys `warehouses` and `total`, hence
always truthy; a list is truthy iff non-empty; a raw string iff
non-empty. -/
def CacheData.truthy : CacheData → Bool
  | .avail _ => true
  | .products ps => ps != []
  | .rawJson s => s != ""

/-- What a cache file holds: the serialized data and the file's
modification time, in seconds. -/
structure CacheEntry where
  data : CacheData
  mtime : Int
deriving DecidableEq, Repr

/-- The cache directory: a map from filename to the file persisted there
(`none` = no such file). -/
def CacheState : Type := String → Option CacheEntry

/-- The empty cache directory. -/
def emptyCache : CacheState := fun _ => none

/-- `BrightPearlClient._get_cached_data` (client.py lines 85-93): read the
file for the key's filename; return its data only when
`datetime.now() - cache_time < timedelta(minutes=cache_minutes)`, i.e.
`now - mtime < cacheMinutes * 60` seconds; otherwise report `none`.  A
stale file is left on disk: the function only reads state, it never
deletes or modifies it. -/
def getCachedData (pfx : String) (st : CacheState) (now : Int)
    (cacheKey : String) (cacheMinutes : Int) : Option CacheData :=
  match st (getCacheFilename pfx cacheKey) with
  | some e => if now - e.mtime < cacheMinutes * 60 then some e.data else none
  | none => none

/-- `BrightPearlClient._save_to_cache` (client.py lines 95-99): write the
data to the key's file, overwriting any prior entry; the write time
becomes the file's modification time. -/
def saveToCache (pfx : String) (st : CacheState) (now : Int)
    (cacheKey : String) (data : CacheData) : CacheState :=
  fun f => if f = getCacheFilename pfx cacheKey then some ⟨data, now⟩ else st f

/-- `BrightPearlClient._invalidate_cache` /
`_invalidate_product_availability_cache` (client.py lines 101-109 and
513-522): delete the key's file when present; absence is only logged. -/
def invalidateCache (pfx : String) (st : CacheState) (cacheKey : String) :
    CacheState :=
  fun f => if f = getCacheFilename pfx cacheKey then none else st f

/-- The availability cache key of a product
(`f'product_availability_{product_id}'`). -/
def availabilityKey (productId : Nat) : String :=
  "product_availability_" ++ toString productId

/- ----------------------------------------------------------------------
Request execution (`base_client.py` lines 121-189).
The transport is an explicit function from the attempt index to the
attempt's outcome: `requests.get`/`requests.post` either times out, fails
with a generic `RequestException`, or returns an HTTP response.
`requests` raises `HTTPError` only from `raise_for_status()`, which
`_make_request` reaches only for the accepted statuses 200/207 (where it
does not raise), so the transport itself never produces an `HTTPError`.
The successful decode of the body is abstracted as an opaque payload
string; the claims under verification do not depend on the
`response_model` branching.
---------------------------------------------------------------------- -/

instance {ε α : Type} [DecidableEq ε] [DecidableEq α] : DecidableEq (Except ε α)
  | .error e, .error f =>
    if h : e = f then .isTrue (by rw [h]) else .isFalse (by simp [h])
  | .error _, .ok _ => .isFalse (by simp)
  | .ok _, .error _ => .isFalse (by simp)
  | .ok a, .ok b =>
    if h : a = b then .isTrue (by rw [h]) else .isFalse (by simp [h])

/-- Python string slicing `s[:n]`: the first `n` characters. -/
def strTake (s : String) (n : Nat) : String := ⟨s.data.take n⟩

/-- The outcome of one transport invocation. -/
inductive Outcome where
  | timeout
  | reqError (msg : String)
  | httpResponse (status : Nat) (body : String) (payload : String)
deriving DecidableEq, Repr

/-- Result of `_make_request`: the returned payload or the raised
`BrightPearlApiError` message, together with the number of transport
invocations performed. -/
structure MRResult where
  result : Except String String
  invocations : Nat
deriving DecidableEq, Repr

/-- The retry loop of `_make_request` (base_client.py lines 127-176),
iterating `attempt` over `range(max_retries)`; `remaining` is the number
of loop iterations still to run.  A response with status other than 200
and 207 raises `BrightPearlApiError` at once (lines 142-145); a timeout is
logged and the loop continues; a generic `RequestException` continues
except on the last attempt, where it raises; falling off the loop raises
the max-retries error (line 176). -/
def makeRequestGo (maxRetries : Nat) (outcomes : Nat → Outcome)
    (method url : String) : Nat → Nat → Nat → MRResult
  | _, 0, inv =>
    ⟨.error ("Failed to retrieve data after " ++ toString maxRetries ++
      " attempts"), inv⟩
  | attempt, remaining + 1, inv =>
    match outcomes attempt with
    | .timeout => makeRequestGo maxRetries outcomes method url
        (attempt + 1) remaining (inv + 1)
    | .httpResponse status body payload =>
      if status ≠ 200 ∧ status ≠ 207 then
        ⟨.error ("API Error for " ++ method ++ " " ++ url ++ ":\n" ++
          strTake body 500), inv + 1⟩
      else ⟨.ok payload, inv + 1⟩
    | .reqError msg =>
      if attempt = maxRetries - 1 then
        ⟨.error ("Request failed after " ++ toString maxRetries ++
          " attempts: " ++ msg), inv + 1⟩
      else makeRequestGo maxRetries outcomes method url
        (attempt + 1) remaining (inv + 1)

/-- `BaseBrightPearlClient._make_request` over an explicit transport. -/
def makeRequest (maxRetries : Nat) (outcomes : Nat → Outcome)
    (method url : String) : MRResult :=
  makeRequestGo maxRetries outcomes method url 0 maxRetries 0

/-- What `_handle_http_error` decides for an `HTTPError`. -/
inductive HttpErrorAction where
  | sleepRetry (delaySeconds : Nat)
  | raiseApiError (kind : String)
deriving DecidableEq, Repr

/-- `BaseBrightPearlClient._handle_http_error` (base_client.py lines
178-189): on 429 sleep `(attempt + 1) ** 2` seconds and return to the
loop; on other 4xx raise a client error; on 5xx raise a server error;
otherwise raise an unexpected-error. -/
def handleHttpError (status attempt : Nat) : HttpErrorAction :=
  if status = 429 then .sleepRetry ((attempt + 1) ^ 2)
  else if 400 ≤ status ∧ status < 500 then .raiseApiError "Client error"
  else if 500 ≤ status ∧ status < 600 then .raiseApiError "Server error"
  else .raiseApiError "Unexpected HTTP error"

/-- A raised Python exception, by kind. -/
inductive PyErr where
  | valueError (msg : String)
  | keyError (msg : String)
  | apiError (msg : String)
deriving DecidableEq, Repr

/- ----------------------------------------------------------------------
`BrightPearlClient.get_product_availability` (client.py lines 122-175).
The live-product list (obtained through `get_all_live_products`) and the
availability transport (`_make_request` on
`/warehouse-service/product-availability/{ids}`) are explicit parameters;
the response dict's keys, decimal strings of product ids on the wire, are
carried as `Nat` directly (the code converts them back with `int(...)` and
reuses the string for the cache key, so both sides agree).
---------------------------------------------------------------------- -/

/-- Pointwise update of a result dict (`result[product_id] = v`). -/
def setResult (r : Nat → Option CacheData) (pid : Nat) (v : CacheData) :
    Nat → Option CacheData :=
  fun q => if q = pid then some v else r q

/-- Membership of a product id in the dict
`{p['productId']: p for p in live_products if p.get('stockTracked',
False)}`. -/
def isStockTracked (liveProducts : List Product) (pid : Nat) : Bool :=
  liveProducts.any (fun p => p.productId = pid && p.stockTracked)

/-- State accumulated by the first loop of `get_product_availability`:
the result dict so far, the ids whose availability must be fetched, and
the ids whose availability cache entry has been read (each read is of the
key `availabilityKey pid`, so the trace records the ids). -/
structure GPAScan where
  result : Nat → Option CacheData
  uncached : List Nat
  reads : List Nat

/-- One iteration of the first loop of `get_product_availability` (client.py
lines 146-157): a product that is not stock tracked gets
`{"warehouses": {}, "total": {}}` and is skipped (no cache read); otherwise
the availability cache is read and, when `if cached_data:` is falsy (a miss
or falsy data), the id joins the uncached batch. -/
def gpaScanStep (liveProducts : List Product) (pfx : String)
    (cache : CacheState) (now cacheMinutes : Int) (st : GPAScan) (pid : Nat) :
    GPAScan :=
  if isStockTracked liveProducts pid then
    let key := availabilityKey pid
    match getCachedData pfx cache now key cacheMinutes with
    | some d =>
      if d.truthy then
        ⟨setResult st.result pid d, st.uncached, st.reads ++ [pid]⟩
      else ⟨st.result, st.uncached ++ [pid], st.reads ++ [pid]⟩
    | none => ⟨st.result, st.uncached ++ [pid], st.reads ++ [pid]⟩
  else ⟨setResult st.result pid (.avail emptyAvail), st.uncached, st.reads⟩

/-- Result of `get_product_availability`: the returned dict or the raised
exception, the ids whose availability cache entry was read, the batch of
ids placed in the availability request URL (`[]` when no request was
made), and the cache directory afterwards. -/
structure GPAResult where
  outcome : Except PyErr (Nat → Option CacheData)
  cacheReads : List Nat
  requested : List Nat
  cacheAfter : CacheState

/-- The completed first loop of `get_product_availability`: the fold of
`gpaScanStep` over the requested ids, starting from an empty result. -/
def gpaScan (liveProducts : List Product) (pfx : String) (cache : CacheState)
    (now cacheMinutes : Int) (productIds : List Nat) : GPAScan :=
  productIds.foldl (gpaScanStep liveProducts pfx cache now cacheMinutes)
    ⟨fun _ => none, [], []⟩

/-- `BrightPearlClient.get_product_availability` (client.py lines 122-175).
An empty id list raises `ValueError`.  When the uncached batch is
non-empty, one availability request is made for it; on success each
returned entry is stored in the result and written to the cache; on
`BrightPearlApiError` the error is logged and each uncached id not yet in
the result receives `{"warehouses": {}, "total": {}}` — the call still
returns normally. -/
def getProductAvailability (pfx : String) (liveProducts : List Product)
    (cache : CacheState) (now cacheMinutes : Int) (productIds : List Nat)
    (fetch : List Nat → Except String (List (Nat × AvailEntry))) : GPAResult :=
  if productIds = [] then
    ⟨.error (.valueError "product_ids must not be empty"), [], [], cache⟩
  else
    let st := gpaScan liveProducts pfx cache now cacheMinutes productIds
    if st.uncached = [] then ⟨.ok st.result, st.reads, [], cache⟩
    else
      match fetch st.uncached with
      | .ok entries =>
        let rc := entries.foldl
          (fun (rc : (Nat → Option CacheData) × CacheState) e =>
            (setResult rc.1 e.1 (.avail e.2),
             saveToCache pfx rc.2 now (availabilityKey e.1) (.avail e.2)))
          (st.result, cache)
        ⟨.ok rc.1, st.reads, st.uncached, rc.2⟩
      | .error _ =>
        let r := st.uncached.foldl
          (fun r pid =>
            match r pid with
            | none => setResult r pid (.avail emptyAvail)
            | some _ => r)
          st.result
        ⟨.ok r, st.reads, st.uncached, cache⟩

/- ----------------------------------------------------------------------
Page walker: `_format_product_search_response` and
`_fetch_all_live_products` (client.py lines 196-286).
---------------------------------------------------------------------- -/

/-- The `metaData` of one product-search page, with the column-name list
already projected out of the `columns` dicts
(`[column['name'] for column in metadata['columns']]`). -/
structure PageMeta where
  morePagesAvailable : Bool
  resultsAvailable : Nat
  resultsReturned : Nat
  firstResult : Nat
  lastResult : Nat
  columns : List String
deriving DecidableEq, Repr

/-- One product-search response: metadata plus the positional rows. -/
structure PageResp where
  meta : PageMeta
  results : List (List JVal)
deriving DecidableEq, Repr

/-- `dict(zip(column_names, product_data))`. -/
def dictZip (names : List String) (vals : List JVal) : Dict JVal :=
  names.zip vals

/-- The product list built by `_format_product_search_response` (client.py
lines 205-214): zip each row with the column names and keep a product when
`include_non_stock_tracked or product_dict.get('stockTracked', False)`. -/
def formatProducts (resp : PageResp) (includeNonStockTracked : Bool) :
    List (Dict JVal) :=
  (resp.results.map (dictZip resp.meta.columns)).filter
    (fun d =>
      includeNonStockTracked ||
        ((pyGet d "stockTracked").getD .null).truthy)

/-- The final filter of `_fetch_all_live_products` (client.py line 283):
`product.get('productStatus') == 'LIVE'`. -/
def liveFilter (products : List (Dict JVal)) : List (Dict JVal) :=
  products.filter (fun d => pyGet d "productStatus" = some (.s "LIVE"))

/-- The `while True` loop of `_fetch_all_live_products` (client.py lines
256-286) over an explicit page transport, driven by fuel (`none` means the
fuel ran out before the loop broke; with enough fuel the value is exact).
Each iteration requests the page at `firstResult`, appends its formatted
products, breaks when
`len(all_products) >= metadata.resultsAvailable or not
metadata.morePagesAvailable`, and otherwise continues from
`metadata.lastResult + 1`.  On break the accumulated products are filtered
to the LIVE ones.  The result carries the list of `firstResult` values
requested. -/
def fetchAllGo (pages : Nat → PageResp) (includeNonStockTracked : Bool) :
    Nat → Nat → List (Dict JVal) → List Nat →
    Option (List (Dict JVal) × List Nat)
  | 0, _, _, _ => none
  | fuel + 1, firstResult, acc, reqs =>
    let resp := pages firstResult
    let acc' := acc ++ formatProducts resp includeNonStockTracked
    let reqs' := reqs ++ [firstResult]
    if resp.meta.resultsAvailable ≤ acc'.length || !resp.meta.morePagesAvailable
    then some (liveFilter acc', reqs')
    else fetchAllGo pages includeNonStockTracked fuel
      (resp.meta.lastResult + 1) acc' reqs'

/-- `BrightPearlClient._fetch_all_live_products`: start at
`first_result = 1` with an empty accumulator. -/
def fetchAllLiveProducts (pages : Nat → PageResp)
    (includeNonStockTracked : Bool) (fuel : Nat) :
    Option (List (Dict JVal) × List Nat) :=
  fetchAllGo pages includeNonStockTracked fuel 1 [] []

/- ----------------------------------------------------------------------
Stock correction: `stock_correction`, `apply_stock_correction` and
`_invalidate_product_availability_cache` (client.py lines 390-522).
---------------------------------------------------------------------- -/

/-- Whitespace stripping from both ends of a string (Python `str.strip`),
character-list based. -/
def pyStrip (s : String) : List Char :=
  ((s.data.dropWhile Char.isWhitespace).reverse.dropWhile
    Char.isWhitespace).reverse

/-- Python `int(s)` on a string: optional surrounding whitespace, an
optional sign, then decimal digits; anything else (such as `"0.0.0.0"`)
raises `ValueError`. -/
def pythonIntStr (s : String) : Option Int :=
  let signDigits : Int × List Char :=
    match pyStrip s with
    | '-' :: rest => (-1, rest)
    | '+' :: rest => (1, rest)
    | l => (1, l)
  if signDigits.2 ≠ [] ∧ signDigits.2.all Char.isDigit then
    some (signDigits.1 *
      (signDigits.2.foldl (fun acc c => acc * 10 + (c.toNat - 48)) 0 : Nat))
  else none

/-- One element of the `corrections` argument of `stock_correction`: the
optional `sku` and `productId` keys model key presence in the dict;
`new_quantity` and `reason` are the required fields. -/
structure CorrectionInput where
  sku : Option String
  productId : Option Nat
  newQuantity : Int
  reason : String
deriving DecidableEq, Repr

/-- One element of the formatted correction batch POSTed to the service
(client.py lines 453-462).  The `cost` field is the constant
`{"currency": "USD", "value": 0.00}` and is not repeated here. -/
structure FormattedCorrection where
  quantity : Int
  productId : Nat
  locationId : Int
  reason : String
deriving DecidableEq, Repr

/-- `{product['SKU']: product['productId'] for product in live_products}`
looked up at one SKU (a later product with the same SKU wins). -/
def skuToProductId (liveProducts : List Product) (sku : String) : Option Nat :=
  liveProducts.foldl
    (fun acc p => if p.sku = sku then some p.productId else acc) none

/-- The first loop of `stock_correction` (client.py lines 424-435):
resolve every correction to a product id, preferring the `sku` key; an
unresolved SKU or a correction with neither key raises `ValueError`. -/
def resolveCorrections (liveProducts : List Product) (warehouseId : Nat) :
    List CorrectionInput → Except PyErr (List Nat)
  | [] => .ok []
  | c :: rest =>
    match c.sku with
    | some s =>
      match skuToProductId liveProducts s with
      | none => .error (.valueError ("SKU " ++ s ++
          " not found in live products in warehouse " ++ toString warehouseId))
      | some pid =>
        (resolveCorrections liveProducts warehouseId rest).map (pid :: ·)
    | none =>
      match c.productId with
      | some pid =>
        (resolveCorrections liveProducts warehouseId rest).map (pid :: ·)
      | none =>
        .error (.valueError "Each correction must contain either sku or productId")

/-- `correction.get('productId') or sku_to_product_id[correction['sku']]`
(client.py line 441): the `productId` value when present and truthy
(non-zero), otherwise indexing by the `sku` key, where a missing key
raises `KeyError`. -/
def resolveForDelta (liveProducts : List Product) (c : CorrectionInput) :
    Except PyErr Nat :=
  let bySku : Except PyErr Nat :=
    match c.sku with
    | none => .error (.keyError "sku")
    | some s =>
      match skuToProductId liveProducts s with
      | none => .error (.keyError s)
      | some pid => .ok pid
  match c.productId with
  | some pid => if pid ≠ 0 then .ok pid else bySku
  | none => bySku

/-- `current_availability.get(product_id, {}).get('warehouses',
{}).get(str(warehouse_id), {}).get('onHand', 0)` (client.py lines
443-445): every missing level defaults to zero on-hand stock. -/
def currentQuantity (avail : Nat → Option AvailEntry) (warehouseId pid : Nat) :
    Int :=
  match avail pid with
  | none => 0
  | some a =>
    match pyGet a.warehouses (toString warehouseId) with
    | none => 0
    | some wh => (pyGet wh "onHand").getD 0

/-- The second loop of `stock_correction` (client.py lines 440-463).
`loc` is the loop-carried `location` variable: when it is `None` it is
replaced by the string `"0.0.0.0"` on the iteration's entry.  The quantity
delta is `new_quantity - current_quantity`; only a non-zero delta emits a
formatted correction, whose `locationId` is `int(location)` — raising
`ValueError` when the string is not a decimal integer. -/
def formatCorrectionsGo (liveProducts : List Product)
    (avail : Nat → Option AvailEntry) (warehouseId : Nat) :
    Option String → List FormattedCorrection → List CorrectionInput →
    Except PyErr (List FormattedCorrection)
  | _, acc, [] => .ok acc
  | loc, acc, c :: rest =>
    match resolveForDelta liveProducts c with
    | .error e => .error e
    | .ok pid =>
      let quantityDelta := c.newQuantity - currentQuantity avail warehouseId pid
      let locStr := loc.getD "0.0.0.0"
      if quantityDelta ≠ 0 then
        match pythonIntStr locStr with
        | none => .error (.valueError
            ("invalid literal for int() with base 10: " ++ locStr))
        | some lid =>
          formatCorrectionsGo liveProducts avail warehouseId (some locStr)
            (acc ++ [⟨quantityDelta, pid, lid, c.reason⟩]) rest
      else formatCorrectionsGo liveProducts avail warehouseId (some locStr)
        acc rest

/-- The formatted batch built by `stock_correction` from its inputs. -/
def formatCorrections (liveProducts : List Product)
    (avail : Nat → Option AvailEntry) (warehouseId : Nat)
    (location : Option String) (corrections : List CorrectionInput) :
    Except PyErr (List FormattedCorrection) :=
  formatCorrectionsGo liveProducts avail warehouseId location [] corrections

/-- The decoded response of the stock-correction POST: either the list of
server-assigned correction ids, or some non-list JSON value. -/
inductive RespVal where
  | idList (ids : List Int)
  | nonList
deriving DecidableEq, Repr

/-- `BrightPearlClient.apply_stock_correction` (client.py lines 472-510)
over the explicit transport result `resp` of the POST.  On a transport
error the wrapped `BrightPearlApiError` is re-raised and the cache is
untouched.  When the decoded response is a non-empty list, the
availability cache entry of every submitted product id is deleted and the
id list is returned; otherwise the `Stock correction failed` error is
raised (and re-wrapped by the surrounding handler). -/
def applyStockCorrection (pfx : String) (cache : CacheState)
    (resp : Except String RespVal) (formatted : List FormattedCorrection) :
    Except PyErr (List Int) × CacheState :=
  match resp with
  | .error e =>
    (.error (.apiError ("Failed to apply stock corrections: " ++ e)), cache)
  | .ok (.idList ids) =>
    if ids.length > 0 then
      (.ok ids,
       formatted.foldl
         (fun st fc => invalidateCache pfx st (availabilityKey fc.productId))
         cache)
    else
      (.error (.apiError
        "Failed to apply stock corrections: Stock correction failed"), cache)
  | .ok .nonList =>
    (.error (.apiError
      "Failed to apply stock corrections: Stock correction failed"), cache)

/-- Result of `stock_correction`: the returned id list or raised
exception, whether the mutation POST was made, the batch that was
submitted to it (`[]` when it was not called), and the cache directory
afterwards. -/
structure SCResult where
  outcome : Except PyErr (List Int)
  mutationCalled : Bool
  submitted : List FormattedCorrection
  cacheAfter : CacheState

/-- `BrightPearlClient.stock_correction` (client.py lines 390-470).
`avail` is the dict returned by `get_product_availability` for the
resolved ids, and `resp` the transport result of the correction POST,
both explicit parameters.  A non-positive warehouse id or an empty
correction list raises `ValueError` (`warehouseId : Nat`, so the
non-positive ints are represented by `0`); then the corrections are
resolved, the batch is formatted, and a non-empty batch is submitted
through `apply_stock_correction` while an empty one returns `[]` without
calling the network. -/
def stockCorrection (pfx : String) (cache : CacheState)
    (resp : Except String RespVal) (liveProducts : List Product)
    (avail : Nat → Option AvailEntry) (warehouseId : Nat)
    (location : Option String) (corrections : List CorrectionInput) :
    SCResult :=
  if warehouseId = 0 then
    ⟨.error (.valueError "warehouse_id must be a positive integer"),
     false, [], cache⟩
  else if corrections = [] then
    ⟨.error (.valueError "corrections must be a non-empty list of dictionaries"),
     false, [], cache⟩
  else
    match resolveCorrections liveProducts warehouseId corrections with
    | .error e => ⟨.error e, false, [], cache⟩
    | .ok _ =>
      match formatCorrections liveProducts avail warehouseId location
        corrections with
      | .error e => ⟨.error e, false, [], cache⟩
      | .ok [] => ⟨.ok [], false, [], cache⟩
      | .ok fcs =>
        let oc := applyStockCorrection pfx cache resp fcs
        ⟨oc.1, true, fcs, oc.2⟩

/- ----------------------------------------------------------------------
Small observers and the mocked page sequence of the pagination test.
---------------------------------------------------------------------- -/

/-- Whether an `Except` value is a normal return (no exception raised). -/
def exceptIsOk {ε α : Type} : Except ε α → Bool
  | .ok _ => true
  | .error _ => false

/-- The value the returned availability dict assigns to an id (`none` when
the call raised or the id is absent from the dict). -/
def gpaResultAt (g : GPAResult) (pid : Nat) : Option CacheData :=
  match g.outcome with
  | .ok r => r pid
  | .error _ => none

/-- Whether `if cached_data:` sees a truthy cached availability value for
the id: a present, fresh and truthy cache entry. -/
def cacheHit (pfx : String) (cache : CacheState) (now cacheMinutes : Int)
    (pid : Nat) : Bool :=
  match getCachedData pfx cache now (availabilityKey pid) cacheMinutes with
  | some d => d.truthy
  | none => false

/-- One row of the mocked product-search pages: a stock-tracked LIVE
product with the given id. -/
def mockRow (i : Nat) : List JVal := [.i i, .s "LIVE", .b true]

/-- The mocked paginated server of the specification's pagination test:
1200 products in total, served in pages of up to 500 starting at the
requested `firstResult`, with the standard metadata (`lastResult` is the
index of the page's last record, `morePagesAvailable` iff records remain
beyond it). -/
def mockPages (firstResult : Nat) : PageResp :=
  let cnt := min 500 (1201 - firstResult)
  { meta :=
      { morePagesAvailable := decide (firstResult + cnt - 1 < 1200)
        resultsAvailable := 1200
        resultsReturned := cnt
        firstResult := firstResult
        lastResult := firstResult + cnt - 1
        columns := ["productId", "productStatus", "stockTracked"] }
    results := (List.range cnt).map (fun j => mockRow (firstResult + j)) }

/- ----------------------------------------------------------------------
Theorems.
---------------------------------------------------------------------- -/

/-- Helper for C7: when the transport times out on the first `n` attempts
of a window and returns status 200 on attempt `attempt + n`, the retry
loop returns the decoded payload after exactly `n + 1` further transport
invocations. -/
lemma makeRequestGo_timeout_prefix (maxRetries : Nat) (outcomes : Nat → Outcome)
    (method url body payload : String) :
    ∀ (n attempt remaining inv : Nat),
      (∀ k, k < n → outcomes (attempt + k) = .timeout) →
      outcomes (attempt + n) = .httpResponse 200 body payload →
      n < remaining →
      makeRequestGo maxRetries outcomes method url attempt remaining inv =
        ⟨.ok payload, inv + n + 1⟩ := by
  intro n
  induction n with
  | zero =>
    intro attempt remaining inv _ hsucc hlt
    match remaining, hlt with
    | r + 1, _ =>
      have h0 : outcomes attempt = .httpResponse 200 body payload := hsucc
      simp [makeRequestGo, h0]
  | succ m ih =>
    intro attempt remaining inv htime hsucc hlt
    match remaining, hlt with
    | r + 1, hlt =>
      have h0 : outcomes attempt = .timeout := htime 0 (Nat.succ_pos m)
      have hrec := ih (attempt + 1) r (inv + 1)
        (fun k hk => by
          have := htime (k + 1) (by omega)
          rwa [show attempt + (k + 1) = attempt + 1 + k by omega] at this)
        (by rwa [show attempt + (m + 1) = attempt + 1 + m by omega] at hsucc)
        (by omega)
      simp only [makeRequestGo, h0]
      rw [hrec]
      have : inv + 1 + m + 1 = inv + (m + 1) + 1 := by omega
      rw [this]

/-- Helper for C7: when the transport times out on every attempt of the
window, the loop falls through and raises the terminal max-retries
error. -/
lemma makeRequestGo_all_timeout (maxRetries : Nat) (outcomes : Nat → Outcome)
    (method url : String) :
    ∀ (remaining attempt inv : Nat),
      (∀ k, k < remaining → outcomes (attempt + k) = .timeout) →
      makeRequestGo maxRetries outcomes method url attempt remaining inv =
        ⟨.error ("Failed to retrieve data after " ++ toString maxRetries ++
          " attempts"), inv + remaining⟩ := by
  intro remaining
  induction remaining with
  | zero => intro attempt inv _; simp [makeRequestGo]
  | succ r ih =>
    intro attempt inv h
    have h0 : outcomes attempt = .timeout := h 0 (Nat.succ_pos r)
    have hrec := ih (attempt + 1) (inv + 1)
      (fun k hk => by
        have := h (k + 1) (by omega)
        rwa [show attempt + (k + 1) = attempt + 1 + k by omega] at this)
    simp only [makeRequestGo, h0]
    rw [hrec]
    have : inv + 1 + r = inv + (r + 1) := by omega
    rw [this]

/-- C7: for every simulated sequence of `n` timeouts followed by one
success (`n < maxRetries`), `_make_request` returns the decoded payload
and the transport is invoked exactly `n + 1` times; and when every one of
the `maxRetries` attempts times out, the call raises the terminal
`BrightPearlApiError` naming the exhausted attempt count. -/
theorem makeRequest_timeouts_then_success_and_exhaustion :
    (∀ (outcomes : Nat → Outcome) (maxRetries n : Nat)
        (method url body payload : String),
      (∀ k, k < n → outcomes k = .timeout) →
      outcomes n = .httpResponse 200 body payload →
      n < maxRetries →
      makeRequest maxRetries outcomes method url = ⟨.ok payload, n + 1⟩)
    ∧ (∀ (outcomes : Nat → Outcome) (maxRetries : Nat) (method url : String),
      (∀ k, k < maxRetries → outcomes k = .timeout) →
      makeRequest maxRetries outcomes method url =
        ⟨.error ("Failed to retrieve data after " ++ toString maxRetries ++
          " attempts"), maxRetries⟩) := by
  constructor
  · intro outcomes maxRetries n method url body payload htime hsucc hlt
    have := makeRequestGo_timeout_prefix maxRetries outcomes method url body
      payload n 0 maxRetries 0
      (fun k hk => by rw [Nat.zero_add]; exact htime k hk)
      (by rw [Nat.zero_add]; exact hsucc) hlt
    simpa [makeRequest] using this
  · intro outcomes maxRetries method url h
    have := makeRequestGo_all_timeout maxRetries outcomes method url
      maxRetries 0 0 (fun k hk => by rw [Nat.zero_add]; exact h k hk)
    simpa [makeRequest] using this

/-- Witness for C7 at concrete inputs: two timeouts then a 200 response
succeed in exactly three invocations with `maxRetries = 3`, and three
timeouts out of three raise the terminal error naming three attempts. -/
theorem makeRequest_timeouts_witness :
    makeRequest 3 (fun k => if k < 2 then .timeout
      else .httpResponse 200 "ok" "data") "GET" "/x" = ⟨.ok "data", 3⟩
    ∧ makeRequest 3 (fun _ => .timeout) "GET" "/x" =
        ⟨.error "Failed to retrieve data after 3 attempts", 3⟩ :=
  ⟨makeRequest_timeouts_then_success_and_exhaustion.1 _ 3 2 "GET" "/x" "ok"
      "data" (by decide) (by decide) (by decide),
   makeRequest_timeouts_then_success_and_exhaustion.2 _ 3 "GET" "/x"
      (by decide)⟩

/-- C1 (code bug evidence): when the server returns status 429, the
composed `_make_request` raises `BrightPearlApiError` at the non-200/207
status check after a single transport invocation — no backoff sleep, no
retry — because `requests` only raises `HTTPError` from
`raise_for_status()`, which that check preempts; while the dead
`_handle_http_error` branch would have slept exactly `(attempt + 1) ^ 2`
seconds and returned to the loop, as the specification describes. -/
theorem makeRequest_429_no_retry_dead_backoff :
    makeRequest 3 (fun _ => .httpResponse 429 "Too many requests" "")
      "GET" "/x" =
      ⟨.error "API Error for GET /x:\nToo many requests", 1⟩
    ∧ ∀ attempt : Nat,
        handleHttpError 429 attempt = .sleepRetry ((attempt + 1) ^ 2) := by
  exact ⟨by decide, fun attempt => rfl⟩

/-- C8: saving a value and reading it back within the TTL window returns
the identical stored data; reading after the TTL has expired reports
absent while the stale file remains on disk with its data and write time
unmodified (`_get_cached_data` is a pure read: it returns an Option and
never alters the `CacheState`). -/
theorem cache_roundtrip_and_expiry (pfx : String) (st : CacheState)
    (key : String) (data : CacheData) (writeTime readTime cacheMinutes : Int) :
    (readTime - writeTime < cacheMinutes * 60 →
      getCachedData pfx (saveToCache pfx st writeTime key data) readTime key
        cacheMinutes = some data)
    ∧ (cacheMinutes * 60 ≤ readTime - writeTime →
      getCachedData pfx (saveToCache pfx st writeTime key data) readTime key
        cacheMinutes = none
      ∧ saveToCache pfx st writeTime key data (getCacheFilename pfx key) =
          some ⟨data, writeTime⟩) := by
  constructor
  · intro h
    simp [getCachedData, saveToCache, h]
  · intro h
    refine ⟨?_, by simp [saveToCache]⟩
    simp [getCachedData, saveToCache, not_lt.mpr h]

/-- Witness for C8 at concrete inputs: with a 15-minute TTL, a value
written at time 0 is read back at time 100 and absent at time 900, the
stale entry still on disk. -/
theorem cache_roundtrip_witness :
    getCachedData "p" (saveToCache "p" emptyCache 0 "k" (.rawJson "v")) 100
      "k" 15 = some (.rawJson "v")
    ∧ (getCachedData "p" (saveToCache "p" emptyCache 0 "k" (.rawJson "v")) 900
        "k" 15 = none
      ∧ saveToCache "p" emptyCache 0 "k" (.rawJson "v")
          (getCacheFilename "p" "k") = some ⟨.rawJson "v", 0⟩) :=
  ⟨(cache_roundtrip_and_expiry "p" emptyCache "k" (.rawJson "v") 0 100 15).1
      (by decide),
   (cache_roundtrip_and_expiry "p" emptyCache "k" (.rawJson "v") 0 900 15).2
      (by decide)⟩

/-- The hex digest of an MD5 hash always has 32 characters. -/
lemma md5hexChars_length (s : String) : (md5hexChars s).length = 32 := by
  simp [md5hexChars, wordHexLE, byteHex]

/-- The 8-character cache prefix always has 8 characters. -/
lemma generateCachePrefix_data_length (s : String) :
    (generateCachePrefix s).data.length = 8 := by
  simp [generateCachePrefix, md5hexChars_length]

/-- String concatenation acts as list concatenation on the character
data. -/
lemma string_append_data (s t : String) : (s ++ t).data = s.data ++ t.data :=
  rfl

/-- C3 counterexample: two client instances configured with different
account credentials — the same application reference but different
account tokens — derive the SAME physical cache filename for the same
logical cache key, because `_generate_cache_prefix` hashes only the
application reference.  This refutes the claim that two configured
clients never collide on the same physical store. -/
theorem cache_filename_credentials_counterexample :
    (⟨"someapp", "token-one"⟩ : Credentials) ≠ ⟨"someapp", "token-two"⟩
    ∧ clientCacheFilename ⟨"someapp", "token-one"⟩ "live_products" =
        clientCacheFilename ⟨"someapp", "token-two"⟩ "live_products" :=
  ⟨by decide, rfl⟩

/-- C3 amended: cache filenames are namespaced by the 8-character md5
prefix of the application reference alone; whenever the two application
references yield distinct prefixes, the derived filenames differ for
every cache key (the account token plays no role). -/
theorem cache_filename_distinct_prefixes (a1 a2 t1 t2 key : String)
    (h : generateCachePrefix a1 ≠ generateCachePrefix a2) :
    clientCacheFilename ⟨a1, t1⟩ key ≠ clientCacheFilename ⟨a2, t2⟩ key := by
  intro heq
  apply h
  have hd := congrArg String.data heq
  simp only [clientCacheFilename, getCacheFilename, string_append_data,
    List.append_assoc] at hd
  have hlen : (generateCachePrefix a1).data.length =
      (generateCachePrefix a2).data.length := by
    rw [generateCachePrefix_data_length, generateCachePrefix_data_length]
  have hdata := List.append_inj_left hd hlen
  calc generateCachePrefix a1 = ⟨(generateCachePrefix a1).data⟩ := rfl
    _ = ⟨(generateCachePrefix a2).data⟩ := by rw [hdata]
    _ = generateCachePrefix a2 := rfl

/-- Witness for the amended C3 at concrete inputs: the app references
`"a"` and `"b"` hash to distinct 8-character prefixes, so the two clients
derive distinct filenames for the `live_products` key. -/
theorem cache_filename_distinct_prefixes_witness :
    clientCacheFilename ⟨"a", "t1"⟩ "live_products" ≠
      clientCacheFilename ⟨"b", "t2"⟩ "live_products" :=
  cache_filename_distinct_prefixes "a" "b" "t1" "t2" "live_products"
    (by decide)

/-- Helper for C6: deleting cache files never resurrects an absent one. -/
lemma invalidateFold_none_preserved (pfx : String) :
    ∀ (fcs : List FormattedCorrection) (st : CacheState) (file : String),
      st file = none →
      (fcs.foldl
        (fun st fc => invalidateCache pfx st (availabilityKey fc.productId))
        st) file = none := by
  intro fcs
  induction fcs with
  | nil => intro st file h; exact h
  | cons fc rest ih =>
    intro st file h
    refine ih _ file ?_
    simp only [invalidateCache]
    split <;> simp [h]

/-- Helper for C6: after folding the per-product invalidations over a
batch, the availability cache file of every product in the batch is
gone. -/
lemma invalidateFold_mem (pfx : String) :
    ∀ (fcs : List FormattedCorrection) (st : CacheState)
      (fc : FormattedCorrection), fc ∈ fcs →
      (fcs.foldl
        (fun st fc => invalidateCache pfx st (availabilityKey fc.productId))
        st) (getCacheFilename pfx (availabilityKey fc.productId)) = none := by
  intro fcs
  induction fcs with
  | nil => intro st fc h; exact absurd h (List.not_mem_nil fc)
  | cons hd rest ih =>
    intro st fc hmem
    rcases List.mem_cons.mp hmem with heq | hrest
    · subst heq
      refine invalidateFold_none_preserved pfx rest _ _ ?_
      simp [invalidateCache]
    · exact ih _ fc hrest

/-- C6: after a successful submission of a non-empty correction batch
(the decoded POST response is a non-empty id list), `apply_stock_correction`
returns those ids and the availability cache entry of every submitted
product id is invalidated: a subsequent cache get for any of those keys
reports absent, at any read time and TTL. -/
theorem apply_stock_correction_invalidates (pfx : String) (cache : CacheState)
    (ids : List Int) (formatted : List FormattedCorrection)
    (h : ids ≠ []) (now cacheMinutes : Int) :
    (applyStockCorrection pfx cache (.ok (.idList ids)) formatted).1 = .ok ids
    ∧ ∀ fc ∈ formatted,
      getCachedData pfx
        (applyStockCorrection pfx cache (.ok (.idList ids)) formatted).2
        now (availabilityKey fc.productId) cacheMinutes = none := by
  have hlen : ids.length > 0 := List.length_pos.mpr h
  constructor
  · simp [applyStockCorrection, hlen]
  · intro fc hfc
    have hfile := invalidateFold_mem pfx formatted cache fc hfc
    simp [applyStockCorrection, hlen, getCachedData, hfile]

/-- Witness for C6 at concrete inputs, mirroring the specification's
scenario: the availability cache entry for product 1007 exists before the
correction; after a successful submission returning id 813313, the get for
that key reports absent. -/
theorem apply_stock_correction_invalidates_witness :
    getCachedData "p"
      (saveToCache "p" emptyCache 0 (availabilityKey 1007) (.avail emptyAvail))
      5 (availabilityKey 1007) 15 = some (.avail emptyAvail)
    ∧ (applyStockCorrection "p"
        (saveToCache "p" emptyCache 0 (availabilityKey 1007) (.avail emptyAvail))
        (.ok (.idList [813313])) [⟨5, 1007, 53, "restock"⟩]).1 = .ok [813313]
    ∧ getCachedData "p"
        (applyStockCorrection "p"
          (saveToCache "p" emptyCache 0 (availabilityKey 1007)
            (.avail emptyAvail))
          (.ok (.idList [813313])) [⟨5, 1007, 53, "restock"⟩]).2
        5 (availabilityKey 1007) 15 = none :=
  ⟨by decide,
   (apply_stock_correction_invalidates "p"
      (saveToCache "p" emptyCache 0 (availabilityKey 1007) (.avail emptyAvail))
      [813313] [⟨5, 1007, 53, "restock"⟩] (by decide) 5 15).1,
   (apply_stock_correction_invalidates "p"
      (saveToCache "p" emptyCache 0 (availabilityKey 1007) (.avail emptyAvail))
      [813313] [⟨5, 1007, 53, "restock"⟩] (by decide) 5 15).2
      ⟨5, 1007, 53, "restock"⟩ (List.mem_singleton.mpr rfl)⟩

/-- Helper for C5: every correction the formatting loop emits has a
non-zero quantity equal to `new_quantity - current_quantity` of a
correction of the input list (beyond whatever was already accumulated). -/
lemma formatCorrectionsGo_mem (lp : List Product)
    (avail : Nat → Option AvailEntry) (wid : Nat) :
    ∀ (corrections : List CorrectionInput) (loc : Option String)
      (acc fcs : List FormattedCorrection),
      formatCorrectionsGo lp avail wid loc acc corrections = .ok fcs →
      ∀ fc ∈ fcs, fc ∈ acc ∨
        (fc.quantity ≠ 0 ∧ ∃ c ∈ corrections,
          resolveForDelta lp c = .ok fc.productId ∧
          fc.quantity = c.newQuantity -
            currentQuantity avail wid fc.productId) := by
  intro corrections
  induction corrections with
  | nil =>
    intro loc acc fcs h fc hfc
    simp only [formatCorrectionsGo, Except.ok.injEq] at h
    subst h
    exact .inl hfc
  | cons c rest ih =>
    intro loc acc fcs h fc hfc
    simp only [formatCorrectionsGo] at h
    split at h
    · simp at h
    next pid hres =>
      split at h
      next hdel =>
        split at h
        · simp at h
        next lid hint =>
          rcases ih _ _ _ h fc hfc with hacc | ⟨hq, c', hc', hres', hqty⟩
          · rcases List.mem_append.mp hacc with hin | hnew
            · exact .inl hin
            · rw [List.mem_singleton.mp hnew]
              exact .inr ⟨hdel, c, List.mem_cons_self c rest, hres, rfl⟩
          · exact .inr ⟨hq, c', List.mem_cons_of_mem c hc', hres', hqty⟩
      next hdel =>
        rcases ih _ _ _ h fc hfc with hacc | ⟨hq, c', hc', hres', hqty⟩
        · exact .inl hacc
        · exact .inr ⟨hq, c', List.mem_cons_of_mem c hc', hres', hqty⟩

/-- C5: every correction submitted by `stock_correction` carries the
quantity delta `new_quantity - current on-hand at the target warehouse`,
and is non-zero (zero-delta items are omitted from the outgoing batch);
and when the filtered batch is empty, the operation returns an empty list
with no mutation POST made. -/
theorem stock_correction_deltas :
    (∀ (lp : List Product) (avail : Nat → Option AvailEntry) (wid : Nat)
        (loc : Option String) (corrections : List CorrectionInput)
        (fcs : List FormattedCorrection),
      formatCorrections lp avail wid loc corrections = .ok fcs →
      ∀ fc ∈ fcs, fc.quantity ≠ 0 ∧ ∃ c ∈ corrections,
        resolveForDelta lp c = .ok fc.productId ∧
        fc.quantity = c.newQuantity - currentQuantity avail wid fc.productId)
    ∧ (∀ (pfx : String) (cache : CacheState) (resp : Except String RespVal)
        (lp : List Product) (avail : Nat → Option AvailEntry) (wid : Nat)
        (loc : Option String) (corrections : List CorrectionInput)
        (pids : List Nat),
      wid ≠ 0 → corrections ≠ [] →
      resolveCorrections lp wid corrections = .ok pids →
      formatCorrections lp avail wid loc corrections = .ok [] →
      stockCorrection pfx cache resp lp avail wid loc corrections =
        ⟨.ok [], false, [], cache⟩) := by
  constructor
  · intro lp avail wid loc corrections fcs h fc hfc
    rcases formatCorrectionsGo_mem lp avail wid corrections loc [] fcs h fc hfc
      with h0 | h1
    · exact absurd h0 (List.not_mem_nil fc)
    · exact h1
  · intro pfx cache resp lp avail wid loc corrections pids h0 h1 hres hfmt
    simp [stockCorrection, h0, h1, hres, hfmt]

/-- Witness for C5 at concrete inputs: desired 15 with 5 on hand submits
exactly delta 10 for product 1007; desired equal to on-hand yields an
empty batch, an empty result list and no mutation call. -/
theorem stock_correction_deltas_witness :
    ((⟨10, 1007, 53, "restock"⟩ : FormattedCorrection).quantity ≠ 0
      ∧ ∃ c ∈ [(⟨none, some 1007, 15, "restock"⟩ : CorrectionInput)],
          resolveForDelta [⟨1007, "SKU1007", true⟩] c = .ok 1007
          ∧ (10 : Int) = c.newQuantity -
              currentQuantity
                (fun pid => if pid = 1007 then
                  some ⟨[("3", [("onHand", 5)])], []⟩ else none) 3 1007)
    ∧ stockCorrection "p" emptyCache (.ok .nonList) [⟨1007, "SKU1007", true⟩]
        (fun pid => if pid = 1007 then
          some ⟨[("3", [("onHand", 5)])], []⟩ else none) 3 (some "53")
        [⟨none, some 1007, 5, "noop"⟩] = ⟨.ok [], false, [], emptyCache⟩ :=
  ⟨stock_correction_deltas.1 [⟨1007, "SKU1007", true⟩]
      (fun pid => if pid = 1007 then
        some ⟨[("3", [("onHand", 5)])], []⟩ else none) 3 (some "53")
      [⟨none, some 1007, 15, "restock"⟩] [⟨10, 1007, 53, "restock"⟩] (by rfl)
      ⟨10, 1007, 53, "restock"⟩ (List.mem_singleton.mpr rfl),
   stock_correction_deltas.2 "p" emptyCache (.ok .nonList)
      [⟨1007, "SKU1007", true⟩]
      (fun pid => if pid = 1007 then
        some ⟨[("3", [("onHand", 5)])], []⟩ else none) 3 (some "53")
      [⟨none, some 1007, 5, "noop"⟩] [1007] (by decide) (by decide) (by rfl)
      (by rfl)⟩

/-- Helper for C9: with the `location` argument `None` (or already
defaulted to `"0.0.0.0"`), as soon as the formatting loop reaches a
correction with a non-zero delta — all corrections being resolvable — it
raises the `int("0.0.0.0")` `ValueError`. -/
lemma formatCorrectionsGo_none_location (lp : List Product)
    (avail : Nat → Option AvailEntry) (wid : Nat) :
    ∀ (corrections : List CorrectionInput) (loc : Option String)
      (acc : List FormattedCorrection),
      (loc = none ∨ loc = some "0.0.0.0") →
      (∀ c ∈ corrections, exceptIsOk (resolveForDelta lp c) = true) →
      (∃ c ∈ corrections, ∃ pid, resolveForDelta lp c = .ok pid ∧
        c.newQuantity - currentQuantity avail wid pid ≠ 0) →
      formatCorrectionsGo lp avail wid loc acc corrections =
        .error (.valueError "invalid literal for int() with base 10: 0.0.0.0")
      := by
  intro corrections
  induction corrections with
  | nil =>
    intro loc acc _ _ hex
    rcases hex with ⟨c, hc, _⟩
    exact absurd hc (List.not_mem_nil c)
  | cons c rest ih =>
    intro loc acc hloc hok hex
    have hcok := hok c (List.mem_cons_self c rest)
    cases hres : resolveForDelta lp c with
    | error e => rw [hres] at hcok; simp [exceptIsOk] at hcok
    | ok pid =>
      have hlocstr : loc.getD "0.0.0.0" = "0.0.0.0" := by
        rcases hloc with h | h <;> simp [h]
      simp only [formatCorrectionsGo, hres, hlocstr]
      by_cases hdel : c.newQuantity - currentQuantity avail wid pid = 0
      · rw [if_neg (not_not_intro hdel)]
        refine ih (some "0.0.0.0") acc (.inr rfl)
          (fun c' hc' => hok c' (List.mem_cons_of_mem c hc')) ?_
        rcases hex with ⟨c0, hc0, pid0, hres0, hd0⟩
        rcases List.mem_cons.mp hc0 with heq | hmem
        · subst heq
          rw [hres] at hres0
          cases hres0
          exact absurd hdel hd0
        · exact ⟨c0, hmem, pid0, hres0, hd0⟩
      · rw [if_pos hdel]
        have hint : pythonIntStr "0.0.0.0" = none := by decide
        simp only [hint]
        rfl

/-- C9: calling `stock_correction` with `location = None` and at least one
correction with a non-zero computed delta (all corrections resolvable)
raises `ValueError` while formatting — converting the defaulted location
string `"0.0.0.0"` to an integer — before any mutation request is made,
and submits nothing. -/
theorem stock_correction_none_location_valueerror (pfx : String)
    (cache : CacheState) (resp : Except String RespVal) (lp : List Product)
    (avail : Nat → Option AvailEntry) (wid : Nat)
    (corrections : List CorrectionInput) (pids : List Nat) :
    wid ≠ 0 →
    corrections ≠ [] →
    resolveCorrections lp wid corrections = .ok pids →
    (∀ c ∈ corrections, exceptIsOk (resolveForDelta lp c) = true) →
    (∃ c ∈ corrections, ∃ pid, resolveForDelta lp c = .ok pid ∧
      c.newQuantity - currentQuantity avail wid pid ≠ 0) →
    stockCorrection pfx cache resp lp avail wid none corrections =
      ⟨.error (.valueError "invalid literal for int() with base 10: 0.0.0.0"),
       false, [], cache⟩ := by
  intro h0 h1 hres hok hex
  have hfmt := formatCorrectionsGo_none_location lp avail wid corrections
    none [] (.inl rfl) hok hex
  simp [stockCorrection, h0, h1, hres, formatCorrections, hfmt]

/-- Witness for C9 at concrete inputs: one correction on product 1007 with
desired 15 and 5 on hand, `location = None`: the call raises the
`int("0.0.0.0")` `ValueError` with no mutation call. -/
theorem stock_correction_none_location_witness :
    stockCorrection "p" emptyCache (.ok .nonList) [⟨1007, "SKU1007", true⟩]
      (fun pid => if pid = 1007 then
        some ⟨[("3", [("onHand", 5)])], []⟩ else none) 3 none
      [⟨none, some 1007, 15, "restock"⟩] =
      ⟨.error (.valueError "invalid literal for int() with base 10: 0.0.0.0"),
       false, [], emptyCache⟩ :=
  stock_correction_none_location_valueerror "p" emptyCache (.ok .nonList)
    [⟨1007, "SKU1007", true⟩]
    (fun pid => if pid = 1007 then
      some ⟨[("3", [("onHand", 5)])], []⟩ else none) 3
    [⟨none, some 1007, 15, "restock"⟩] [1007] (by decide) (by decide) (by rfl)
    (by decide)
    ⟨⟨none, some 1007, 15, "restock"⟩, List.mem_singleton.mpr rfl, 1007, rfl,
      by decide⟩

/-- Processing one id leaves the result dict unchanged at every other
id. -/
lemma gpaScanStep_result_other (lp : List Product) (pfx : String)
    (cache : CacheState) (now cm : Int) (st : GPAScan) (q pid : Nat)
    (hne : q ≠ pid) :
    (gpaScanStep lp pfx cache now cm st q).result pid = st.result pid := by
  have hpq : pid ≠ q := Ne.symm hne
  simp only [gpaScanStep]
  split
  · split
    · split
      · simp [setResult, hpq]
      · rfl
    · rfl
  · simp [setResult, hpq]

/-- An id appears in the uncached batch after one step only if it was
there before or is the stock-tracked id just processed. -/
lemma gpaScanStep_uncached_mem (lp : List Product) (pfx : String)
    (cache : CacheState) (now cm : Int) (st : GPAScan) (q x : Nat)
    (h : x ∈ (gpaScanStep lp pfx cache now cm st q).uncached) :
    x ∈ st.uncached ∨ (x = q ∧ isStockTracked lp q = true) := by
  simp only [gpaScanStep] at h
  split at h
  next htr =>
    split at h
    · split at h
      · exact .inl h
      · rcases List.mem_append.mp h with h1 | h2
        · exact .inl h1
        · exact .inr ⟨List.mem_singleton.mp h2, htr⟩
    · rcases List.mem_append.mp h with h1 | h2
      · exact .inl h1
      · exact .inr ⟨List.mem_singleton.mp h2, htr⟩
  · exact .inl h

/-- An id appears in the read trace after one step only if it was there
before or is the stock-tracked id just processed. -/
lemma gpaScanStep_reads_mem (lp : List Product) (pfx : String)
    (cache : CacheState) (now cm : Int) (st : GPAScan) (q x : Nat)
    (h : x ∈ (gpaScanStep lp pfx cache now cm st q).reads) :
    x ∈ st.reads ∨ (x = q ∧ isStockTracked lp q = true) := by
  simp only [gpaScanStep] at h
  split at h
  next htr =>
    split at h
    · split at h
      all_goals
        rcases List.mem_append.mp h with h1 | h2
        · exact .inl h1
        · exact .inr ⟨List.mem_singleton.mp h2, htr⟩
    · rcases List.mem_append.mp h with h1 | h2
      · exact .inl h1
      · exact .inr ⟨List.mem_singleton.mp h2, htr⟩
  · exact .inl h

/-- One step never removes an id from the uncached batch. -/
lemma gpaScanStep_uncached_sub (lp : List Product) (pfx : String)
    (cache : CacheState) (now cm : Int) (st : GPAScan) (q x : Nat)
    (h : x ∈ st.uncached) :
    x ∈ (gpaScanStep lp pfx cache now cm st q).uncached := by
  simp only [gpaScanStep]
  split
  · split
    · split
      · exact h
      · exact List.mem_append_left _ h
    · exact List.mem_append_left _ h
  · exact h

/-- The scan fold never removes an id from the uncached batch. -/
lemma gpaScanFold_uncached_sub (lp : List Product) (pfx : String)
    (cache : CacheState) (now cm : Int) :
    ∀ (l : List Nat) (st0 : GPAScan) (x : Nat), x ∈ st0.uncached →
      x ∈ (l.foldl (gpaScanStep lp pfx cache now cm) st0).uncached := by
  intro l
  induction l with
  | nil => intro st0 x h; exact h
  | cons q rest ih =>
    intro st0 x h
    exact ih _ x (gpaScanStep_uncached_sub lp pfx cache now cm st0 q x h)

/-- Every id of the final uncached batch was requested and is stock
tracked (beyond whatever the fold started with). -/
lemma gpaScanFold_uncached_tracked (lp : List Product) (pfx : String)
    (cache : CacheState) (now cm : Int) :
    ∀ (l : List Nat) (st0 : GPAScan) (x : Nat),
      x ∈ (l.foldl (gpaScanStep lp pfx cache now cm) st0).uncached →
      x ∈ st0.uncached ∨ (x ∈ l ∧ isStockTracked lp x = true) := by
  intro l
  induction l with
  | nil => intro st0 x h; exact .inl h
  | cons q rest ih =>
    intro st0 x h
    rcases ih _ x h with h1 | ⟨h2, h3⟩
    · rcases gpaScanStep_uncached_mem lp pfx cache now cm st0 q x h1
        with h4 | ⟨h5, h6⟩
      · exact .inl h4
      · exact .inr ⟨by rw [h5]; exact List.mem_cons_self q rest, by rw [h5]; exact h6⟩
    · exact .inr ⟨List.mem_cons_of_mem q h2, h3⟩

/-- Every id of the final read trace was requested and is stock tracked
(beyond whatever the fold started with). -/
lemma gpaScanFold_reads_tracked (lp : List Product) (pfx : String)
    (cache : CacheState) (now cm : Int) :
    ∀ (l : List Nat) (st0 : GPAScan) (x : Nat),
      x ∈ (l.foldl (gpaScanStep lp pfx cache now cm) st0).reads →
      x ∈ st0.reads ∨ (x ∈ l ∧ isStockTracked lp x = true) := by
  intro l
  induction l with
  | nil => intro st0 x h; exact .inl h
  | cons q rest ih =>
    intro st0 x h
    rcases ih _ x h with h1 | ⟨h2, h3⟩
    · rcases gpaScanStep_reads_mem lp pfx cache now cm st0 q x h1
        with h4 | ⟨h5, h6⟩
      · exact .inl h4
      · exact .inr ⟨by rw [h5]; exact List.mem_cons_self q rest, by rw [h5]; exact h6⟩
    · exact .inr ⟨List.mem_cons_of_mem q h2, h3⟩

/-- A non-stock-tracked id that is among the requested ids (or already
assigned) ends the scan with the empty availability placeholder in the
result dict. -/
lemma gpaScanFold_result_untracked (lp : List Product) (pfx : String)
    (cache : CacheState) (now cm : Int) (pid : Nat)
    (hpid : isStockTracked lp pid = false) :
    ∀ (l : List Nat) (st0 : GPAScan),
      (pid ∈ l ∨ st0.result pid = some (.avail emptyAvail)) →
      (l.foldl (gpaScanStep lp pfx cache now cm) st0).result pid =
        some (.avail emptyAvail) := by
  intro l
  induction l with
  | nil =>
    intro st0 h
    rcases h with h | h
    · exact absurd h (List.not_mem_nil pid)
    · exact h
  | cons q rest ih =>
    intro st0 h
    refine ih _ ?_
    by_cases hq : q = pid
    · subst hq
      refine .inr ?_
      simp [gpaScanStep, hpid, setResult]
    · rcases h with h | h
      · rcases List.mem_cons.mp h with heq | hmem
        · exact absurd heq.symm hq
        · exact .inl hmem
      · exact .inr (by
          rw [gpaScanStep_result_other lp pfx cache now cm st0 q pid hq]
          exact h)

/-- A stock-tracked id whose cached availability is not a truthy hit ends
the scan unassigned in the result dict and, when requested, in the
uncached batch. -/
lemma gpaScanFold_tracked_miss (lp : List Product) (pfx : String)
    (cache : CacheState) (now cm : Int) (pid : Nat)
    (hpid : isStockTracked lp pid = true)
    (hmiss : cacheHit pfx cache now cm pid = false) :
    ∀ (l : List Nat) (st0 : GPAScan), st0.result pid = none →
      (l.foldl (gpaScanStep lp pfx cache now cm) st0).result pid = none
      ∧ (pid ∈ l ∨ pid ∈ st0.uncached →
          pid ∈ (l.foldl (gpaScanStep lp pfx cache now cm) st0).uncached) := by
  intro l
  induction l with
  | nil =>
    intro st0 h0
    refine ⟨h0, fun h => ?_⟩
    rcases h with h | h
    · exact absurd h (List.not_mem_nil pid)
    · exact h
  | cons q rest ih =>
    intro st0 h0
    have hstep : (gpaScanStep lp pfx cache now cm st0 q).result pid = none
        ∧ (q = pid → pid ∈ (gpaScanStep lp pfx cache now cm st0 q).uncached)
        ∧ (pid ∈ st0.uncached →
            pid ∈ (gpaScanStep lp pfx cache now cm st0 q).uncached) := by
      refine ⟨?_, ?_, fun h =>
        gpaScanStep_uncached_sub lp pfx cache now cm st0 q pid h⟩
      · by_cases hq : q = pid
        · subst hq
          simp only [gpaScanStep, hpid, if_true]
          cases hget : getCachedData pfx cache now (availabilityKey q) cm with
          | none => exact h0
          | some d =>
            have hdt : d.truthy = false := by
              simp only [cacheHit, hget] at hmiss
              exact hmiss
            simp [hget, hdt, h0]
        · exact (gpaScanStep_result_other lp pfx cache now cm st0 q pid hq).trans h0
      · intro hq
        subst hq
        simp only [gpaScanStep, hpid, if_true]
        cases hget : getCachedData pfx cache now (availabilityKey q) cm with
        | none => simp [hget]
        | some d =>
          have hdt : d.truthy = false := by
            simp only [cacheHit, hget] at hmiss
            exact hmiss
          simp [hget, hdt]
    obtain ⟨h1, h2, h3⟩ := hstep
    have ih' := ih _ h1
    refine ⟨ih'.1, fun h => ?_⟩
    rcases h with h | h
    · rcases List.mem_cons.mp h with heq | hmem
      · exact ih'.2 (.inr (h2 heq.symm))
      · exact ih'.2 (.inl hmem)
    · exact ih'.2 (.inr (h3 h))

/-- The success-branch fold of `get_product_availability` never touches
the result dict at ids the response does not mention. -/
lemma gpaEntriesFold_result_other (pfx : String) (now : Int) (pid : Nat) :
    ∀ (entries : List (Nat × AvailEntry)) (r : Nat → Option CacheData)
      (c : CacheState),
      (∀ e ∈ entries, e.1 ≠ pid) →
      (entries.foldl
        (fun (rc : (Nat → Option CacheData) × CacheState) e =>
          (setResult rc.1 e.1 (.avail e.2),
           saveToCache pfx rc.2 now (availabilityKey e.1) (.avail e.2)))
        (r, c)).1 pid = r pid := by
  intro entries
  induction entries with
  | nil => intro r c _; rfl
  | cons e rest ih =>
    intro r c h
    have hne : e.1 ≠ pid := h e (List.mem_cons_self e rest)
    have := ih (setResult r e.1 (.avail e.2))
      (saveToCache pfx c now (availabilityKey e.1) (.avail e.2))
      (fun e' he' => h e' (List.mem_cons_of_mem e he'))
    rw [List.foldl_cons, this]
    simp [setResult, Ne.symm hne]

/-- The error-branch fold assigns the empty placeholder to every uncached
id that is still unassigned (and keeps placeholders already assigned). -/
lemma gpaErrFold_placeholder (pid : Nat) :
    ∀ (l : List Nat) (r : Nat → Option CacheData),
      ((pid ∈ l ∧ r pid = none) ∨ r pid = some (.avail emptyAvail)) →
      (l.foldl
        (fun r pid =>
          match r pid with
          | none => setResult r pid (.avail emptyAvail)
          | some _ => r) r) pid = some (.avail emptyAvail) := by
  intro l
  induction l with
  | nil =>
    intro r h
    rcases h with ⟨h, _⟩ | h
    · exact absurd h (List.not_mem_nil pid)
    · exact h
  | cons q rest ih =>
    intro r h
    rw [List.foldl_cons]
    refine ih _ ?_
    by_cases hq : q = pid
    · subst hq
      rcases h with ⟨_, hnone⟩ | hsome
      · refine .inr ?_
        simp [hnone, setResult]
      · refine .inr ?_
        simp [hsome]
    · have hpres : (match r q with
          | none => setResult r q (.avail emptyAvail)
          | some _ => r) pid = r pid := by
        cases hr : r q with
        | none => simp [setResult, Ne.symm hq]
        | some _ => rfl
      rcases h with ⟨hmem, hnone⟩ | hsome
      · rcases List.mem_cons.mp hmem with heq | hmem'
        · exact absurd heq.symm hq
        · exact .inl ⟨hmem', hpres.trans hnone⟩
      · exact .inr (hpres.trans hsome)

/-- The error-branch fold never touches the result dict at ids outside
the uncached batch. -/
lemma gpaErrFold_other (pid : Nat) :
    ∀ (l : List Nat) (r : Nat → Option CacheData),
      (∀ q ∈ l, q ≠ pid) →
      (l.foldl
        (fun r pid =>
          match r pid with
          | none => setResult r pid (.avail emptyAvail)
          | some _ => r) r) pid = r pid := by
  intro l
  induction l with
  | nil => intro r _; rfl
  | cons q rest ih =>
    intro r h
    rw [List.foldl_cons]
    have hq : q ≠ pid := h q (List.mem_cons_self q rest)
    have hpres : (match r q with
        | none => setResult r q (.avail emptyAvail)
        | some _ => r) pid = r pid := by
      cases hr : r q with
      | none => simp [setResult, Ne.symm hq]
      | some _ => rfl
    rw [ih _ (fun q' hq' => h q' (List.mem_cons_of_mem q hq')), hpres]

/-- C2 counterexample: calling `get_product_availability` for the
stock-tracked product 7 with an empty cache while the availability request
fails with an API error does NOT surface a typed failure — the call
returns normally, assigning product 7 the placeholder
`{"warehouses": {}, "total": {}}`.  The API error is swallowed (only
logged), refuting the claim that no availability API error is silently
swallowed. -/
theorem gpa_api_error_swallowed_counterexample :
    exceptIsOk (getProductAvailability "p" [⟨7, "S7", true⟩] emptyCache 0 15
      [7] (fun _ => .error "boom")).outcome = true
    ∧ gpaResultAt (getProductAvailability "p" [⟨7, "S7", true⟩] emptyCache 0
        15 [7] (fun _ => .error "boom")) 7 = some (.avail emptyAvail) :=
  ⟨rfl, rfl⟩

/-- C2 amended: when the availability request fails with an API error,
`get_product_availability` catches it, logs it and still returns normally;
every requested stock-tracked id that did not have a truthy cache hit is
assigned the placeholder `{"warehouses": {}, "total": {}}` in the returned
dict. -/
theorem gpa_api_error_returns_placeholders (pfx : String) (lp : List Product)
    (cache : CacheState) (now cm : Int) (productIds : List Nat)
    (errMsg : String)
    (fetch : List Nat → Except String (List (Nat × AvailEntry))) :
    productIds ≠ [] →
    (∀ ids, fetch ids = .error errMsg) →
    exceptIsOk (getProductAvailability pfx lp cache now cm productIds
      fetch).outcome = true
    ∧ ∀ pid ∈ productIds, isStockTracked lp pid = true →
        cacheHit pfx cache now cm pid = false →
        gpaResultAt (getProductAvailability pfx lp cache now cm productIds
          fetch) pid = some (.avail emptyAvail) := by
  intro hne hf
  simp only [getProductAvailability, if_neg hne]
  by_cases hunc : (gpaScan lp pfx cache now cm productIds).uncached = []
  · rw [if_pos hunc]
    refine ⟨rfl, fun pid hmem htr hmiss => ?_⟩
    have hscan := gpaScanFold_tracked_miss lp pfx cache now cm pid htr hmiss
      productIds ⟨fun _ => none, [], []⟩ rfl
    have : pid ∈ (gpaScan lp pfx cache now cm productIds).uncached :=
      hscan.2 (.inl hmem)
    rw [hunc] at this
    exact absurd this (List.not_mem_nil pid)
  · rw [if_neg hunc, hf]
    refine ⟨rfl, fun pid hmem htr hmiss => ?_⟩
    have hscan := gpaScanFold_tracked_miss lp pfx cache now cm pid htr hmiss
      productIds ⟨fun _ => none, [], []⟩ rfl
    exact gpaErrFold_placeholder pid
      (gpaScan lp pfx cache now cm productIds).uncached
      (gpaScan lp pfx cache now cm productIds).result
      (.inl ⟨hscan.2 (.inl hmem), hscan.1⟩)

/-- Witness for the amended C2 at concrete inputs: product 9 is stock
tracked, the cache is empty and the availability request fails; the call
returns normally with the placeholder for product 9. -/
theorem gpa_api_error_returns_placeholders_witness :
    exceptIsOk (getProductAvailability "q" [⟨9, "S9", true⟩] emptyCache 0 10
      [9] (fun _ => .error "down")).outcome = true
    ∧ gpaResultAt (getProductAvailability "q" [⟨9, "S9", true⟩] emptyCache 0
        10 [9] (fun _ => .error "down")) 9 = some (.avail emptyAvail) :=
  ⟨(gpa_api_error_returns_placeholders "q" [⟨9, "S9", true⟩] emptyCache 0 10
      [9] "down" (fun _ => .error "down") (by decide) (fun _ => rfl)).1,
   (gpa_api_error_returns_placeholders "q" [⟨9, "S9", true⟩] emptyCache 0 10
      [9] "down" (fun _ => .error "down") (by decide) (fun _ => rfl)).2
      9 (List.mem_singleton.mpr rfl) (by decide) (by decide)⟩

/-- C10: a requested product id outside the stock-tracked live-product set
is assigned `{"warehouses": {}, "total": {}}` in the returned dict, its
availability cache entry is never read, and it is never placed in an
availability request URL — provided the server response mentions only
stock-tracked ids. -/
theorem gpa_non_stock_tracked (pfx : String) (lp : List Product)
    (cache : CacheState) (now cm : Int) (productIds : List Nat)
    (fetch : List Nat → Except String (List (Nat × AvailEntry))) (pid : Nat) :
    productIds ≠ [] →
    pid ∈ productIds →
    isStockTracked lp pid = false →
    (∀ ids entries, fetch ids = .ok entries →
      ∀ e ∈ entries, isStockTracked lp e.1 = true) →
    gpaResultAt (getProductAvailability pfx lp cache now cm productIds fetch)
      pid = some (.avail emptyAvail)
    ∧ pid ∉ (getProductAvailability pfx lp cache now cm productIds
        fetch).cacheReads
    ∧ pid ∉ (getProductAvailability pfx lp cache now cm productIds
        fetch).requested := by
  intro hne hmem hpid hconf
  have hres : (gpaScan lp pfx cache now cm productIds).result pid =
      some (.avail emptyAvail) :=
    gpaScanFold_result_untracked lp pfx cache now cm pid hpid productIds _
      (.inl hmem)
  have hreads : pid ∉ (gpaScan lp pfx cache now cm productIds).reads := by
    intro hin
    rcases gpaScanFold_reads_tracked lp pfx cache now cm productIds _ pid hin
      with h | ⟨_, htr⟩
    · exact absurd h (List.not_mem_nil pid)
    · rw [hpid] at htr
      exact Bool.false_ne_true htr
  have huncached : pid ∉ (gpaScan lp pfx cache now cm productIds).uncached := by
    intro hin
    rcases gpaScanFold_uncached_tracked lp pfx cache now cm productIds _ pid
      hin with h | ⟨_, htr⟩
    · exact absurd h (List.not_mem_nil pid)
    · rw [hpid] at htr
      exact Bool.false_ne_true htr
  simp only [getProductAvailability, if_neg hne]
  by_cases hunc : (gpaScan lp pfx cache now cm productIds).uncached = []
  · rw [if_pos hunc]
    exact ⟨hres, hreads, List.not_mem_nil pid⟩
  · rw [if_neg hunc]
    cases hfetch : fetch (gpaScan lp pfx cache now cm productIds).uncached with
    | ok entries =>
      have hent : ∀ e ∈ entries, e.1 ≠ pid := by
        intro e he heq
        have htr := hconf _ entries hfetch e he
        rw [heq, hpid] at htr
        exact Bool.false_ne_true htr
      have hfold := gpaEntriesFold_result_other pfx now pid entries
        (gpaScan lp pfx cache now cm productIds).result cache hent
      exact ⟨hfold.trans hres, hreads, huncached⟩
    | error e =>
      have hother : ∀ q ∈ (gpaScan lp pfx cache now cm productIds).uncached,
          q ≠ pid := fun q hq heq => huncached (heq ▸ hq)
      exact ⟨(gpaErrFold_other pid _ _ hother).trans hres, hreads, huncached⟩

/-- Witness for C10 at concrete inputs: product 8 is requested but not
stock tracked (only product 7 is); it receives the placeholder and
neither its cache entry nor the request URL mentions it. -/
theorem gpa_non_stock_tracked_witness :
    gpaResultAt (getProductAvailability "p" [⟨7, "S7", true⟩] emptyCache 0 15
      [7, 8] (fun _ => .error "down")) 8 = some (.avail emptyAvail)
    ∧ 8 ∉ (getProductAvailability "p" [⟨7, "S7", true⟩] emptyCache 0 15 [7, 8]
        (fun _ => .error "down")).cacheReads
    ∧ 8 ∉ (getProductAvailability "p" [⟨7, "S7", true⟩] emptyCache 0 15 [7, 8]
        (fun _ => .error "down")).requested :=
  gpa_non_stock_tracked "p" [⟨7, "S7", true⟩] emptyCache 0 15 [7, 8]
    (fun _ => .error "down") 8 (by decide) (by decide) (by decide)
    (by intro ids entries h; simp at h)

/-- C4: on the mocked page sequence with `resultsAvailable = 1200` and
`pageSize = 500`, the page walker issues exactly 3 page requests with
`firstResult` values 1, 501, 1001 and returns 1200 assembled records; and
in general each loop iteration continues exactly when the accumulated
count is below `resultsAvailable` and `morePagesAvailable` holds — the
next page starting at `lastResult + 1` — and otherwise stops, returning
the accumulated records filtered to the LIVE ones. -/
theorem fetchAll_pagination :
    ((fetchAllLiveProducts mockPages false 3).map
      (fun rc => (rc.1.length, rc.2)) = some (1200, [1, 501, 1001]))
    ∧ (∀ (pages : Nat → PageResp) (inc : Bool) (fuel f : Nat)
        (acc : List (Dict JVal)) (reqs : List Nat),
      ((acc ++ formatProducts (pages f) inc).length <
          (pages f).meta.resultsAvailable ∧
        (pages f).meta.morePagesAvailable = true →
        fetchAllGo pages inc (fuel + 1) f acc reqs =
          fetchAllGo pages inc fuel ((pages f).meta.lastResult + 1)
            (acc ++ formatProducts (pages f) inc) (reqs ++ [f]))
      ∧ ((pages f).meta.resultsAvailable ≤
            (acc ++ formatProducts (pages f) inc).length ∨
          (pages f).meta.morePagesAvailable = false →
        fetchAllGo pages inc (fuel + 1) f acc reqs =
          some (liveFilter (acc ++ formatProducts (pages f) inc),
            reqs ++ [f]))) := by
  constructor
  · set_option maxRecDepth 150000 in decide
  · intro pages inc fuel f acc reqs
    constructor
    · rintro ⟨hlt, hmore⟩
      have hcond : ((pages f).meta.resultsAvailable ≤
          (acc ++ formatProducts (pages f) inc).length ||
          !(pages f).meta.morePagesAvailable) = false := by
        simp only [hmore, Bool.not_true, Bool.or_false,
          decide_eq_false_iff_not, not_le]
        exact hlt
      simp only [fetchAllGo, hcond]
      simp
    · intro h
      have hcond : ((pages f).meta.resultsAvailable ≤
          (acc ++ formatProducts (pages f) inc).length ||
          !(pages f).meta.morePagesAvailable) = true := by
        rcases h with h | h
        · simp only [Bool.or_eq_true, decide_eq_true_eq]
          exact .inl h
        · rw [h]
          simp
      simp only [fetchAllGo, hcond]
      simp

/-- Witness for C4's generic loop clauses at concrete inputs: a page
reporting 2 available results with 1 returned and more pages available
makes the walker continue at `lastResult + 1 = 2`; a page with
`morePagesAvailable = false` makes it stop and return the filtered
accumulator after this single request. -/
theorem fetchAll_pagination_witness :
    fetchAllGo (fun _ => ⟨⟨true, 2, 1, 1, 1, ["productStatus"]⟩,
      [[.s "LIVE"]]⟩) false 1 1 [] [] =
      fetchAllGo (fun _ => ⟨⟨true, 2, 1, 1, 1, ["productStatus"]⟩,
        [[.s "LIVE"]]⟩) false 0 2 [] [1]
    ∧ fetchAllGo (fun _ => ⟨⟨false, 1, 1, 1, 1, ["productStatus"]⟩,
        [[.s "LIVE"]]⟩) true 1 1 [] [] =
        some ([[("productStatus", JVal.s "LIVE")]], [1]) :=
  ⟨(fetchAll_pagination.2 (fun _ => ⟨⟨true, 2, 1, 1, 1, ["productStatus"]⟩,
      [[.s "LIVE"]]⟩) false 0 1 [] []).1 (by decide),
   (fetchAll_pagination.2 (fun _ => ⟨⟨false, 1, 1, 1, 1, ["productStatus"]⟩,
      [[.s "LIVE"]]⟩) true 0 1 [] []).2 (Or.inr rfl)⟩

end BrightPearl
